import Mathlib

/-!
Verification of the `sip_receiver` telephony session engine:
a shallow embedding of `codec.py`, `sessions.py` and `sip_ua.py`
(µ-law decoding, RTP header parsing, the bounded forwarding queue,
the RTP session manager with its port pool, and the SIP UAS), with
theorems settling the specified behavioural properties.

Conventions: Python `bytes` are embedded as `List Nat` with every read
reduced `% 256`; numpy `uint8` arithmetic wraps `% 256`; Python `int`
is `Nat`/`Int`; Python exceptions become `Except`/`Option` results.
-/

namespace SipReceiver

/-! ## Codec (`sip_receiver/codec.py`)

The source builds a 256-entry lookup table with numpy:
```
_mu = np.arange(256, dtype=np.int16)
_mu = (~_mu).astype(np.uint8)          -- u = 255 - b
sign = ((_mu & 0x80) != 0)
exponent = (_mu >> 4) & 0x07
mantissa = _mu & 0x0F
magnitude = ((mantissa << 1) + 1) << (exponent + 2)
pcm = (magnitude - 33).astype(np.int16)
pcm[sign] = -pcm[sign]
```
`mantissa`, `exponent` are `uint8` arrays, so `magnitude` is computed by a
`uint8 << uint8` ufunc: the C-level shift result is truncated back to
`uint8`, i.e. taken `% 256`; likewise `magnitude - 33` is a `uint8`
subtraction that wraps `% 256` before the cast to `int16`. -/

/-- One entry of `MULAW_LUT`: the `int16` value the code's table assigns to
input byte `b`, with numpy's `uint8` wraparound made explicit. -/
def MULAW_LUT (b : Nat) : Int :=
  let u := 255 - b % 256
  let sign := 128 ≤ u
  let exponent := (u / 16) % 8
  let mantissa := u % 16
  let magnitude := ((mantissa * 2 + 1) * 2 ^ (exponent + 2)) % 256
  let pcm : Nat := (magnitude + 256 - 33) % 256
  if sign then -(pcm : Int) else (pcm : Int)

/-- `mulaw_to_pcm16`: the per-sample view of the conversion (the source maps
the LUT over the input bytes and serialises each `int16` little-endian,
so the byte output has exactly twice the input length). -/
def mulaw_to_pcm16 (ulaw_bytes : List Nat) : List Int :=
  ulaw_bytes.map MULAW_LUT

/-- Modelled from the spec: the standard G.711 µ-law expansion that
`decode_mulaw` is specified to compute — invert the byte, split into
sign / exponent / mantissa, reconstruct the biased magnitude
`((mantissa·8 + 0x84) << exponent) − 0x84`, clamp to the 16-bit signed
range, negate if the sign bit is set. -/
def decode_mulaw_spec (b : Nat) : Int :=
  let u := 255 - b % 256
  let sign := 128 ≤ u
  let exponent := (u / 16) % 8
  let mantissa := u % 16
  let magnitude : Int := (mantissa * 8 + 0x84) * 2 ^ exponent - 0x84
  let clamped := min magnitude 32767
  if sign then max (-32768) (-clamped) else clamped

/-! ## RTP header parsing (`sessions.py`, `parse_rtp_header`) -/

/-- `int.from_bytes(pkt[i:j], "big")` with Python slice semantics
(out-of-range slices truncate silently). -/
def sliceBE (pkt : List Nat) (i j : Nat) : Nat :=
  ((pkt.drop i).take (j - i)).foldl (fun acc b => acc * 256 + b % 256) 0

/-- The tuple `(pt, seq, ts, ssrc, payload)` returned by `parse_rtp_header`. -/
structure RtpParsed where
  pt : Nat
  seq : Nat
  ts : Nat
  ssrc : Nat
  payload : List Nat
deriving DecidableEq

/-- `parse_rtp_header`, with `ValueError` embedded as `Except.error` of the
source's message. -/
def parse_rtp_header (pkt : List Nat) : Except String RtpParsed :=
  if pkt.length < 12 then Except.error "RTP packet too short"
  else
    let v_p_x_cc := pkt.headD 0 % 256
    if v_p_x_cc / 64 ≠ 2 then Except.error "Unsupported RTP version"
    else
      let pt := (pkt.getD 1 0 % 256) % 128
      let seq := sliceBE pkt 2 4
      let ts := sliceBE pkt 4 8
      let ssrc := sliceBE pkt 8 12
      let cc := v_p_x_cc % 16
      let idx0 := 12 + 4 * cc
      if (v_p_x_cc / 16) % 2 = 1 then
        if pkt.length < idx0 + 4 then Except.error "RTP ext header truncated"
        else
          let idx := idx0 + 4 + sliceBE pkt (idx0 + 2) (idx0 + 4) * 4
          if pkt.length < idx then Except.error "Bad RTP header length"
          else Except.ok ⟨pt, seq, ts, ssrc, pkt.drop idx⟩
      else
        if pkt.length < idx0 then Except.error "Bad RTP header length"
        else Except.ok ⟨pt, seq, ts, ssrc, pkt.drop idx0⟩

/-- The version field: top two bits of the first byte. -/
def rtpVersion (pkt : List Nat) : Nat := (pkt.headD 0 % 256) / 64

/-- The total header length the packet declares (fixed header + CSRC words +
optional extension), or `none` when the extension header itself is cut off
before its length field can be read. -/
def rtpHeaderLen (pkt : List Nat) : Option Nat :=
  let b0 := pkt.headD 0 % 256
  let idx0 := 12 + 4 * (b0 % 16)
  if (b0 / 16) % 2 = 1 then
    if pkt.length < idx0 + 4 then none
    else some (idx0 + 4 + sliceBE pkt (idx0 + 2) (idx0 + 4) * 4)
  else some idx0

/-- Whether an embedded fallible call returned normally. -/
def exceptOk : Except ε α → Bool
  | Except.ok _ => true
  | Except.error _ => false

instance [DecidableEq ε] [DecidableEq α] : DecidableEq (Except ε α) := fun x y =>
  match x, y with
  | Except.ok a, Except.ok b =>
    if h : a = b then isTrue (by rw [h]) else isFalse (by simp [h])
  | Except.error a, Except.error b =>
    if h : a = b then isTrue (by rw [h]) else isFalse (by simp [h])
  | Except.ok _, Except.error _ => isFalse (by simp)
  | Except.error _, Except.ok _ => isFalse (by simp)

/-! ## Bounded forwarding queue (`sessions.py`, `CallSession.tx_q` and the
enqueue path of `RTPProtocol.datagram_received`) -/

/-- `asyncio.Queue(maxsize=100)`: the capacity of a session's `tx_q`. -/
def QUEUE_MAXSIZE : Nat := 100

/-- `Queue.put_nowait`: appends at the tail, raises `QueueFull` when the
queue already holds `maxsize` items. -/
def put_nowait (q : List α) (x : α) : Except Unit (List α) :=
  if q.length < QUEUE_MAXSIZE then Except.ok (q ++ [x]) else Except.error ()

/-- The enqueue step of `RTPProtocol.datagram_received`: `put_nowait` inside
`try`/`except QueueFull: pass` — a full queue drops the chunk, nothing
propagates. -/
def enqueue_chunk (q : List α) (x : α) : List α :=
  match put_nowait q x with
  | Except.ok q2 => q2
  | Except.error _ => q

/-! ## Session manager (`sessions.py`, `SessionManager`)

`RTP_BIND_IP` / `RTP_PORT_MIN` / `RTP_PORT_MAX` come from environment
variables, so they are carried in a configuration record; the OS-level
bind probe `_port_available` is an external effect, modelled as an oracle
`port_available : Nat → Bool` in the same record. `start_call` runs under
the manager's lock, so operations are sequential; the `await` of
`create_datagram_endpoint` binds the listener before `start_call`
returns, which the model reflects by constructing the registered session
only after a port has been claimed. -/

/-- `models.StartCallRequest`. -/
structure StartCallRequest where
  call_id : String
  codec : String
  sample_rate : Nat
  channels : Nat
  ssrc : Option Nat
deriving DecidableEq

/-- `CallSession`, projected to its identity/negotiation fields; the
counters, timestamps, transport and task handles play no part in the
session-table and port-pool behaviour. -/
structure CallSession where
  call_id : String
  rtp_ip : String
  rtp_port : Nat
  codec : String
  sample_rate : Nat
  channels : Nat
  ssrc : Option Nat
deriving DecidableEq

/-- The environment-derived configuration plus the OS bind-probe oracle. -/
structure SMConfig where
  rtp_bind_ip : String
  rtp_port_min : Nat
  rtp_port_max : Nat
  port_available : Nat → Bool

/-- The manager's mutable state: the session table (a dict in insertion
order) and the allocated-port set. -/
structure SMState where
  sessions : List (String × CallSession)
  allocated_ports : List Nat
deriving DecidableEq

/-- The empty manager, as built by `SessionManager.__init__`. -/
def smInit : SMState := ⟨[], []⟩

/-- `self._sessions.get(call_id)`. -/
def SMState.get (st : SMState) (call_id : String) : Option CallSession :=
  (st.sessions.find? (fun p => p.1 == call_id)).map Prod.snd

/-- `RuntimeError("No free RTP ports available")` — the failure the spec
names `PortExhausted`. -/
inductive SMError where
  | portExhausted
deriving DecidableEq

/-- Python `set.add`. -/
def setAdd (p : Nat) (s : List Nat) : List Nat :=
  if p ∈ s then s else p :: s

/-- The scan inside `_next_free_port`: the first port of
`range(RTP_PORT_MIN, RTP_PORT_MAX + 1)` that is neither tracked as
allocated nor rejected by the OS bind probe. -/
def findFreePort (cfg : SMConfig) (alloc : List Nat) : Option Nat :=
  (List.range' cfg.rtp_port_min (cfg.rtp_port_max + 1 - cfg.rtp_port_min)).find?
    (fun p => !alloc.contains p && cfg.port_available p)

/-- `_next_free_port`: claims (adds to the allocated set) and returns the
first free port; on exhaustion it raises without having mutated anything,
so the state comes back unchanged with `none`. -/
def _next_free_port (cfg : SMConfig) (st : SMState) : SMState × Option Nat :=
  match findFreePort cfg st.allocated_ports with
  | some p => ({ st with allocated_ports := setAdd p st.allocated_ports }, some p)
  | none => (st, none)

/-- `start_call`: idempotent get of an existing session, else claim a port,
bind the listener, register and return the new session. The returned state
is the manager's state after the call, also on the error path. -/
def start_call (cfg : SMConfig) (st : SMState) (req : StartCallRequest) :
    SMState × Except SMError CallSession :=
  match st.get req.call_id with
  | some existing => (st, Except.ok existing)
  | none =>
    match _next_free_port cfg st with
    | (st1, none) => (st1, Except.error SMError.portExhausted)
    | (st1, some port) =>
      let session : CallSession :=
        ⟨req.call_id, cfg.rtp_bind_ip, port, req.codec, req.sample_rate,
         req.channels, req.ssrc⟩
      ({ st1 with sessions := st1.sessions ++ [(req.call_id, session)] },
       Except.ok session)

/-- `stop_call`: pop the session if present (else no-op), cancel its task,
drain its queue, close its transport — all session-local — and discard its
port from the allocated set. -/
def stop_call (st : SMState) (call_id : String) : SMState :=
  match st.get call_id with
  | none => st
  | some sess =>
    { sessions := st.sessions.filter (fun p => !(p.1 == call_id)),
      allocated_ports := st.allocated_ports.filter (fun q => !(q == sess.rtp_port)) }

/-- One externally driven manager operation; the bind-probe oracle rides on
each start so the OS state may differ between operations. -/
inductive SMOp where
  | start (req : StartCallRequest) (port_available : Nat → Bool)
  | stop (call_id : String)

/-- Apply one operation to the manager's state. -/
def applyOp (ip : String) (pmin pmax : Nat) (st : SMState) : SMOp → SMState
  | SMOp.start req avail => (start_call ⟨ip, pmin, pmax, avail⟩ st req).1
  | SMOp.stop call_id => stop_call st call_id

/-- Run a sequence of operations from the freshly constructed manager. -/
def runOps (ip : String) (pmin pmax : Nat) (ops : List SMOp) : SMState :=
  ops.foldl (applyOp ip pmin pmax) smInit

/-- The session-table / port-pool invariant: one session per call id,
pairwise-distinct bound ports, and every bound port tracked as allocated. -/
def SMInv (st : SMState) : Prop :=
  (st.sessions.map Prod.fst).Nodup ∧
  (st.sessions.map (fun p => p.2.rtp_port)).Nodup ∧
  ∀ p ∈ st.sessions, p.2.rtp_port ∈ st.allocated_ports

/-! ## SIP UAS (`sip_ua.py`)

SIP messages are text; they are embedded as `List Char` (via
`String.toList`) so that the Python string operations become structurally
recursive functions the kernel can evaluate. Time-dependent values (the
generated to-tag `f"to{int(time.time()*1000)}"` and the SDP origin
timestamp) are passed in as parameters. -/

/-- Python's `str.split("\r\n")`. -/
def splitCRLF : List Char → List (List Char)
  | [] => [[]]
  | '\r' :: '\n' :: rest => [] :: splitCRLF rest
  | c :: rest =>
    match splitCRLF rest with
    | [] => [[c]]
    | l :: ls => (c :: l) :: ls

/-- `msg.split("\r\n", 1)[0]`: the text up to the first CRLF. -/
def firstLineOf : List Char → List Char
  | [] => []
  | '\r' :: '\n' :: _ => []
  | c :: rest => c :: firstLineOf rest

/-- Python's argument-less `str.split()`: whitespace-delimited non-empty
tokens. -/
def splitWSAux (cur : List Char) : List Char → List (List Char)
  | [] => if cur = [] then [] else [cur.reverse]
  | c :: rest =>
    if c.isWhitespace then
      if cur = [] then splitWSAux [] rest else cur.reverse :: splitWSAux [] rest
    else splitWSAux (c :: cur) rest

def splitWS (s : List Char) : List (List Char) := splitWSAux [] s

/-- Python's `str.strip()`. -/
def trimStr (s : List Char) : List Char :=
  ((s.dropWhile Char.isWhitespace).reverse.dropWhile Char.isWhitespace).reverse

/-- Python's `str.lower()` (ASCII suffices for header names). -/
def toLowerStr (s : List Char) : List Char := s.map Char.toLower

/-- Python's `s.split(":", 1)`: the part before the first `':'` and the part
after it, or `none` when the string has no colon. -/
def splitFirstColon : List Char → Option (List Char × List Char)
  | [] => none
  | ':' :: rest => some ([], rest)
  | c :: rest => (splitFirstColon rest).map (fun p => (c :: p.1, p.2))

/-- Python dict assignment `d[k] = v` on an insertion-ordered
association list. -/
def dictSet (k v : List Char) : List (List Char × List Char) → List (List Char × List Char)
  | [] => [(k, v)]
  | (k0, v0) :: rest =>
    if k0 = k then (k0, v) :: rest else (k0, v0) :: dictSet k v rest

/-- Python dict lookup `d.get(k)`. -/
def dictGet (d : List (List Char × List Char)) (k : List Char) : Option (List Char) :=
  (d.find? (fun p => p.1 == k)).map Prod.snd

/-- `parse_start_line`: only start lines beginning with `INVITE`, `ACK` or
`BYE` are parsed; everything else yields the empty triple. -/
def parse_start_line (msg : List Char) : List Char × List Char × List Char :=
  let line := firstLineOf msg
  if "INVITE".toList.isPrefixOf line || "ACK".toList.isPrefixOf line
      || "BYE".toList.isPrefixOf line then
    let parts := splitWS line
    (parts.getD 0 [], parts.getD 1 [], parts.getD 2 "SIP/2.0".toList)
  else ([], [], [])

/-- The loop body of `parse_headers`: walk the lines after the start line,
stopping at the first empty or colon-free line, lower-casing and stripping
each header name. -/
def headersLoop : List (List Char) → List (List Char × List Char) →
    List (List Char × List Char)
  | [], d => d
  | ln :: rest, d =>
    if ln = [] then d
    else
      match splitFirstColon ln with
      | none => d
      | some (k, v) => headersLoop rest (dictSet (toLowerStr (trimStr k)) (trimStr v) d)

/-- `parse_headers`. -/
def parse_headers (msg : List Char) : List (List Char × List Char) :=
  headersLoop (splitCRLF msg).tail []

/-- `get_call_id`: `hdrs.get("call-id", "").strip()`. -/
def get_call_id (hdrs : List (List Char × List Char)) : List Char :=
  trimStr ((dictGet hdrs "call-id".toList).getD [])

/-- The character class `[^;>\s]` closing a tag value. -/
def tagValChar (c : Char) : Bool := !(c = ';' || c = '>' || c.isWhitespace)

/-- `header_param(v, "tag")`: the regex `;\s*tag=([^;>\s]+)` (case
insensitive), scanned left to right. -/
def headerParamTag : List Char → Option (List Char)
  | [] => none
  | ';' :: rest =>
    let r := rest.dropWhile Char.isWhitespace
    match r with
    | t :: a :: g :: '=' :: val =>
      if t.toLower = 't' ∧ a.toLower = 'a' ∧ g.toLower = 'g' then
        let tv := val.takeWhile tagValChar
        if tv = [] then headerParamTag rest else some tv
      else headerParamTag rest
    | _ => headerParamTag rest
  | _ :: rest => headerParamTag rest

/-- Decimal rendering of a nonnegative integer, as Python's `str()` /
f-string formatting produces it. -/
def natToCharsAux : Nat → Nat → List Char → List Char
  | 0, _, acc => acc
  | fuel + 1, n, acc =>
    let d := Char.ofNat (48 + n % 10)
    if n < 10 then d :: acc else natToCharsAux fuel (n / 10) (d :: acc)

def natToChars (n : Nat) : List Char := natToCharsAux (n + 1) n []

/-- `"\r\n"`-join with a trailing separator, the shape of the `sdp_answer`
f-string. -/
def joinCRLF : List (List Char) → List Char
  | [] => []
  | l :: ls => l ++ '\r' :: '\n' :: joinCRLF ls

/-- `sdp_answer(ip, port)` with the `int(time.time())` origin timestamp
passed in as `ts`. -/
def sdp_answer (ts : Nat) (ip : List Char) (port : Nat) : List Char :=
  joinCRLF
    ["v=0".toList,
     "o=- ".toList ++ natToChars ts ++ " ".toList ++ natToChars ts
       ++ " IN IP4 ".toList ++ ip,
     "s=SipReceiver".toList,
     "c=IN IP4 ".toList ++ ip,
     "t=0 0".toList,
     "m=audio ".toList ++ natToChars port ++ " RTP/AVP 0".toList,
     "a=rtpmap:0 PCMU/8000/1".toList]

/-- The `m=audio` line of an SDP answer advertising `port`. -/
def mAudioLine (port : Nat) : List Char :=
  "m=audio ".toList ++ natToChars port ++ " RTP/AVP 0".toList

/-- A SIP peer address `(host, port)`. -/
def Addr : Type := String × Nat

/-- `Dialog`. -/
structure Dialog where
  call_id : List Char
  from_tag : List Char
  to_tag : List Char
  peer_addr : String × Nat
  rtp_port : Int
  established : Bool
deriving DecidableEq

/-- The generated to-tag `f"to{int(time.time()*1000)}"`. -/
def newToTag (nowMs : Nat) : List Char := "to".toList ++ natToChars nowMs

/-- A dialog as first built at `datagram_received` line 112. -/
def mkDialog (call_id from_tag : List Char) (nowMs : Nat) (addr : String × Nat) :
    Dialog :=
  ⟨call_id, from_tag, newToTag nowMs, addr, -1, false⟩

/-- One emitted SIP response, recorded as the arguments handed to
`_send_response` (`_send_response` itself only serialises them). -/
structure SipResponse where
  code : Nat
  reason : List Char
  to_tag : Option (List Char)
  sdp : Option (List Char)
deriving DecidableEq

/-- The dialog table of `SipUAS` plus the `SESSIONS` singleton it drives. -/
structure UASState where
  dialogs : List (List Char × Dialog)
  sm : SMState

/-- Dialog-dict assignment (call ids are `List Char` on this side). -/
def dlgSet (k : List Char) (v : Dialog) :
    List (List Char × Dialog) → List (List Char × Dialog)
  | [] => [(k, v)]
  | (k0, v0) :: rest =>
    if k0 = k then (k0, v) :: rest else (k0, v0) :: dlgSet k v rest

/-- Dialog-dict lookup. -/
def dlgGet (d : List (List Char × Dialog)) (k : List Char) : Option Dialog :=
  (d.find? (fun p => p.1 == k)).map Prod.snd

/-- `self.dialogs.pop(call_id, None)`. -/
def dlgRemove (d : List (List Char × Dialog)) (k : List Char) :
    List (List Char × Dialog) :=
  d.filter (fun p => !(p.1 == k))

/-- The default dialog is never read: a dialog for `call_id` is always
inserted before any lookup. -/
def dlgDefault : Dialog := ⟨[], [], [], ("", 0), -1, false⟩

/-- `SipUAS.datagram_received`, returning the successor state and the list
of responses sent, in emission order. The `INVITE` branch's `do_start`
task runs `start_call` to completion before building and sending the 200,
so its response is the last trace element and carries the SDP built from
the bound session's port; if `start_call` raises, the task dies and no 200
is ever sent. -/
def datagram_received (cfg : SMConfig) (rtpIp : List Char) (nowMs ts : Nat)
    (st : UASState) (addr : String × Nat) (msg : List Char) :
    UASState × List SipResponse :=
  let method := (parse_start_line msg).1
  if method = [] then (st, [])
  else
    let hdrs := parse_headers msg
    let call_id := get_call_id hdrs
    let from_tag := (headerParamTag ((dictGet hdrs "from".toList).getD [])).getD
        "fromtag".toList
    let dialogs1 :=
      if (dlgGet st.dialogs call_id).isSome then st.dialogs
      else dlgSet call_id (mkDialog call_id from_tag nowMs addr) st.dialogs
    if method = "INVITE".toList then
      let dlg := (dlgGet dialogs1 call_id).getD dlgDefault
      let r100 : SipResponse := ⟨100, "Trying".toList, none, none⟩
      let r180 : SipResponse := ⟨180, "Ringing".toList, some dlg.to_tag, none⟩
      let req : StartCallRequest := ⟨String.mk call_id, "PCMU", 8000, 1, none⟩
      match start_call cfg st.sm req with
      | (sm1, Except.ok session) =>
        let dialogs2 := dlgSet call_id { dlg with rtp_port := (session.rtp_port : Int) } dialogs1
        let sdp := sdp_answer ts rtpIp session.rtp_port
        (⟨dialogs2, sm1⟩, [r100, r180, ⟨200, "OK".toList, some dlg.to_tag, some sdp⟩])
      | (sm1, Except.error _) => (⟨dialogs1, sm1⟩, [r100, r180])
    else if method = "ACK".toList then
      match dlgGet dialogs1 call_id with
      | some d => (⟨dlgSet call_id { d with established := true } dialogs1, st.sm⟩, [])
      | none => (⟨dialogs1, st.sm⟩, [])
    else if method = "BYE".toList then
      let sm1 := stop_call st.sm (String.mk call_id)
      let to_tag := (dlgGet dialogs1 call_id).map Dialog.to_tag
      (⟨dlgRemove dialogs1 call_id, sm1⟩, [⟨200, "OK".toList, to_tag, none⟩])
    else
      let to_tag := (dlgGet dialogs1 call_id).map Dialog.to_tag
      (⟨dialogs1, st.sm⟩, [⟨405, "Method Not Allowed".toList, to_tag, none⟩])

/-! ## Theorems -/

/-- C1: the claim asserts the code's µ-law table realises the standard
G.711 expansion, with byte `0xFF` decoding to `0`. It does not: the
table's `uint8` formula maps `0xFF` to `227` (and `0x00` to `-223`),
while the standard expansion the code's own docstring promises maps them
to `0` and `-32124`. This theorem evaluates the code and the specified
expansion at the failing input. -/
theorem C1_mulaw_not_standard_g711 :
    mulaw_to_pcm16 [0xFF] = [227] ∧
    decode_mulaw_spec 0xFF = 0 ∧
    MULAW_LUT 0xFF ≠ decode_mulaw_spec 0xFF ∧
    MULAW_LUT 0x00 = -223 ∧
    decode_mulaw_spec 0x00 = -32124 := by decide

/-- A 12-byte packet, all zero except the version bits set to 2. -/
def rtp12zero : List Nat := 0x80 :: List.replicate 11 0

/-- `parse_rtp_header` succeeds exactly when the packet is at least 12
bytes, carries version 2, and its declared header (CSRC words plus any
extension) fits inside the packet. -/
theorem parse_rtp_header_ok_iff (pkt : List Nat) :
    exceptOk (parse_rtp_header pkt) = true ↔
      12 ≤ pkt.length ∧ rtpVersion pkt = 2 ∧
      ∃ idx, rtpHeaderLen pkt = some idx ∧ idx ≤ pkt.length := by
  simp only [parse_rtp_header, rtpVersion, rtpHeaderLen]
  split_ifs <;>
    simp only [exceptOk] <;>
    constructor <;> intro h <;>
    first
      | trivial
      | exact ⟨by omega, by omega, _, rfl, by omega⟩
      | (obtain ⟨hA, hB, idx, hidx, hle⟩ := h;
         first
           | exact hidx.elim
           | exact Option.noConfusion hidx
           | (injection hidx with hidx2; omega))

/-- C8: `parse_rtp_header` fails on every packet shorter than 12 bytes, on
every packet whose version field is not 2, and on every packet whose
declared extension/header length exceeds the packet length — and on
nothing else: success is exactly the conjunction of the three well-formed
conditions. On the 12-byte all-zero packet with version 2 it succeeds
with payload type, sequence, timestamp and source id all 0 and an empty
payload. -/
theorem C8_parse_rtp_header_failures :
    parse_rtp_header rtp12zero = Except.ok ⟨0, 0, 0, 0, []⟩ ∧
    (∀ pkt : List Nat, pkt.length < 12 → exceptOk (parse_rtp_header pkt) = false) ∧
    (∀ pkt : List Nat, rtpVersion pkt ≠ 2 → exceptOk (parse_rtp_header pkt) = false) ∧
    (∀ (pkt : List Nat) (idx : Nat), rtpHeaderLen pkt = some idx →
      pkt.length < idx → exceptOk (parse_rtp_header pkt) = false) ∧
    (∀ pkt : List Nat, exceptOk (parse_rtp_header pkt) = true ↔
      12 ≤ pkt.length ∧ rtpVersion pkt = 2 ∧
      ∃ idx, rtpHeaderLen pkt = some idx ∧ idx ≤ pkt.length) := by
  refine ⟨by decide, ?_, ?_, ?_, parse_rtp_header_ok_iff⟩
  · intro pkt h
    rcases hok : exceptOk (parse_rtp_header pkt) with _ | _
    · rfl
    · have := (parse_rtp_header_ok_iff pkt).mp hok
      omega
  · intro pkt h
    rcases hok : exceptOk (parse_rtp_header pkt) with _ | _
    · rfl
    · exact absurd ((parse_rtp_header_ok_iff pkt).mp hok).2.1 h
  · intro pkt idx hidx h
    rcases hok : exceptOk (parse_rtp_header pkt) with _ | _
    · rfl
    · obtain ⟨-, -, idx2, hidx2, hle⟩ := (parse_rtp_header_ok_iff pkt).mp hok
      rw [hidx] at hidx2
      cases hidx2
      omega

/-- Witness for C8 at a concrete malformed input: an 11-byte packet is
rejected. -/
theorem C8_parse_rtp_header_failures_witness :
    exceptOk (parse_rtp_header (List.replicate 11 0)) = false :=
  C8_parse_rtp_header_failures.2.1 (List.replicate 11 0) (by decide)

/-- C10: whenever `parse_rtp_header` succeeds, the returned payload type is
the second byte with its top (marker) bit masked off, hence below 128. -/
theorem C10_payload_type_masked (pkt : List Nat) (r : RtpParsed)
    (h : parse_rtp_header pkt = Except.ok r) :
    r.pt = (pkt.getD 1 0 % 256) % 128 ∧ r.pt < 128 := by
  have hlt : (pkt.getD 1 0 % 256) % 128 < 128 := Nat.mod_lt _ (by omega)
  simp only [parse_rtp_header] at h
  split_ifs at h <;> cases h <;> exact ⟨rfl, hlt⟩

/-- Witness for C10: a packet whose second byte is `0xFF` (marker bit set,
payload type bits all ones) parses with payload type 127. -/
theorem C10_payload_type_masked_witness :
    (RtpParsed.mk 127 0 0 0 []).pt
        = (([0x80, 0xFF] ++ List.replicate 10 0).getD 1 0 % 256) % 128 ∧
    (RtpParsed.mk 127 0 0 0 []).pt < 128 :=
  C10_payload_type_masked ([0x80, 0xFF] ++ List.replicate 10 0)
    (RtpParsed.mk 127 0 0 0 []) (by decide)

/-- The enqueue step from an arbitrary queue no longer than capacity:
chunks are appended until the queue holds `QUEUE_MAXSIZE` items, the rest
are dropped. -/
theorem foldl_enqueue_eq (cs : List α) : ∀ q : List α,
    q.length ≤ QUEUE_MAXSIZE →
    cs.foldl enqueue_chunk q = q ++ cs.take (QUEUE_MAXSIZE - q.length) := by
  induction cs with
  | nil => intro q _; simp
  | cons c cs ih =>
    intro q hq
    by_cases hlt : q.length < QUEUE_MAXSIZE
    · have hstep : enqueue_chunk q c = q ++ [c] := by
        simp [enqueue_chunk, put_nowait, hlt]
      have hlen : (q ++ [c]).length ≤ QUEUE_MAXSIZE := by
        simp; omega
      have htake : QUEUE_MAXSIZE - q.length = (QUEUE_MAXSIZE - (q.length + 1)) + 1 := by
        omega
      rw [List.foldl_cons, hstep, ih (q ++ [c]) hlen]
      simp [htake, List.take_succ_cons]
    · have hfull : ¬ q.length < QUEUE_MAXSIZE := hlt
      have hstep : enqueue_chunk q c = q := by
        simp [enqueue_chunk, put_nowait, hfull]
      have hzero : QUEUE_MAXSIZE - q.length = 0 := by omega
      rw [List.foldl_cons, hstep, ih q hq]
      simp [hzero]

/-- C9: pushing any sequence of decoded chunks through the listener's
enqueue path while nothing is dequeued retains exactly the first
`QUEUE_MAXSIZE` chunks in admission order; a push onto a full queue
leaves the queue unchanged (the `QueueFull` exception is caught, so the
enqueue step is a total function and nothing escapes). -/
theorem C9_queue_drop :
    (∀ cs : List (List Int),
      cs.foldl enqueue_chunk ([] : List (List Int)) = cs.take QUEUE_MAXSIZE) ∧
    (∀ (q : List (List Int)) (x : List Int),
      QUEUE_MAXSIZE ≤ q.length → enqueue_chunk q x = q) := by
  constructor
  · intro cs
    have h := foldl_enqueue_eq cs ([] : List (List Int)) (by simp)
    simpa using h
  · intro q x h
    simp [enqueue_chunk, put_nowait, Nat.not_lt.mpr h]

/-- Witness for C9: a push onto a queue already holding 100 chunks is
dropped. -/
theorem C9_queue_drop_witness :
    enqueue_chunk (List.replicate QUEUE_MAXSIZE ([] : List Int)) []
      = List.replicate QUEUE_MAXSIZE [] :=
  C9_queue_drop.2 (List.replicate QUEUE_MAXSIZE []) [] (by simp)

/-! ### Session-manager lemmas -/

/-- A port returned by the free-port scan was not tracked as allocated. -/
theorem findFreePort_not_allocated {cfg : SMConfig} {alloc : List Nat} {p : Nat}
    (h : findFreePort cfg alloc = some p) : p ∉ alloc := by
  have hp := List.find?_some h
  simp only [Bool.and_eq_true, Bool.not_eq_true'] at hp
  simpa using hp.1

/-- `start_call` on an already-active call id returns the existing session
and leaves the state untouched. -/
theorem start_call_existing (cfg : SMConfig) (st : SMState) (req : StartCallRequest)
    (s : CallSession) (hget : st.get req.call_id = some s) :
    start_call cfg st req = (st, Except.ok s) := by
  simp [start_call, hget]

/-- `start_call` on a new call id with a free port claims it and registers
the new session at the end of the table. -/
theorem start_call_new (cfg : SMConfig) (st : SMState) (req : StartCallRequest)
    (p : Nat) (hget : st.get req.call_id = none)
    (hfp : findFreePort cfg st.allocated_ports = some p) :
    start_call cfg st req =
      (⟨st.sessions ++ [(req.call_id,
          ⟨req.call_id, cfg.rtp_bind_ip, p, req.codec, req.sample_rate,
           req.channels, req.ssrc⟩)],
        setAdd p st.allocated_ports⟩,
       Except.ok ⟨req.call_id, cfg.rtp_bind_ip, p, req.codec, req.sample_rate,
         req.channels, req.ssrc⟩) := by
  simp [start_call, hget, _next_free_port, hfp]

/-- `start_call` on a new call id with no free port fails without mutating
anything. -/
theorem start_call_exhausted (cfg : SMConfig) (st : SMState) (req : StartCallRequest)
    (hget : st.get req.call_id = none)
    (hfp : findFreePort cfg st.allocated_ports = none) :
    start_call cfg st req = (st, Except.error SMError.portExhausted) := by
  simp [start_call, hget, _next_free_port, hfp]

/-- `stop_call` on an inactive call id is the identity. -/
theorem stop_call_absent (st : SMState) (cid : String) (h : st.get cid = none) :
    stop_call st cid = st := by
  simp [stop_call, h]

/-- `stop_call` on an active call id drops its table entry and discards its
port. -/
theorem stop_call_present (st : SMState) (cid : String) (sess : CallSession)
    (h : st.get cid = some sess) :
    stop_call st cid =
      ⟨st.sessions.filter (fun p => !(p.1 == cid)),
       st.allocated_ports.filter (fun q => !(q == sess.rtp_port))⟩ := by
  simp [stop_call, h]

/-- An empty lookup means no table entry carries the call id. -/
theorem get_eq_none_iff (st : SMState) (cid : String) :
    st.get cid = none ↔ ∀ p ∈ st.sessions, p.1 ≠ cid := by
  simp [SMState.get, List.find?_eq_none]

/-- A successful lookup comes from a table entry keyed by the call id. -/
theorem get_eq_some_elim (st : SMState) (cid : String) (sess : CallSession)
    (h : st.get cid = some sess) :
    ∃ pr ∈ st.sessions, pr.1 = cid ∧ pr.2 = sess := by
  simp only [SMState.get, Option.map_eq_some'] at h
  obtain ⟨pr, hfind, hsnd⟩ := h
  refine ⟨pr, List.mem_of_find?_eq_some hfind, ?_, hsnd⟩
  have := List.find?_some hfind
  simpa using this

/-- `start_call` preserves the session-table / port-pool invariant. -/
theorem start_call_preserves_inv (cfg : SMConfig) (st : SMState)
    (req : StartCallRequest) (h : SMInv st) : SMInv (start_call cfg st req).1 := by
  obtain ⟨hkeys, hports, halloc⟩ := h
  cases hget : st.get req.call_id with
  | some s => rw [start_call_existing cfg st req s hget]; exact ⟨hkeys, hports, halloc⟩
  | none =>
    cases hfp : findFreePort cfg st.allocated_ports with
    | none => rw [start_call_exhausted cfg st req hget hfp]; exact ⟨hkeys, hports, halloc⟩
    | some p =>
      rw [start_call_new cfg st req p hget hfp]
      have hpnot : p ∉ st.allocated_ports := findFreePort_not_allocated hfp
      have hcid : ∀ q ∈ st.sessions, q.1 ≠ req.call_id :=
        (get_eq_none_iff st req.call_id).mp hget
      have hadd : setAdd p st.allocated_ports = p :: st.allocated_ports := by
        simp [setAdd, hpnot]
      refine ⟨?_, ?_, ?_⟩
      · simp only [List.map_append, List.map_cons, List.map_nil, List.nodup_append]
        refine ⟨hkeys, List.nodup_singleton _, ?_⟩
        intro k hk hk1
        simp only [List.mem_map] at hk
        obtain ⟨q, hq, hqk⟩ := hk
        simp only [List.mem_singleton] at hk1
        exact hcid q hq (by rw [hqk, hk1])
      · simp only [List.map_append, List.map_cons, List.map_nil, List.nodup_append]
        refine ⟨hports, List.nodup_singleton _, ?_⟩
        intro k hk hk1
        simp only [List.mem_map] at hk
        obtain ⟨q, hq, hqk⟩ := hk
        simp only [List.mem_singleton] at hk1
        have hmem := halloc q hq
        rw [hqk, hk1] at hmem
        exact hpnot hmem
      · intro q hq
        rw [hadd]
        rcases List.mem_append.mp hq with hql | hqr
        · exact List.mem_cons_of_mem _ (halloc q hql)
        · simp only [List.mem_singleton] at hqr
          rw [hqr]
          exact List.mem_cons_self _ _

/-- `stop_call` preserves the session-table / port-pool invariant. -/
theorem stop_call_preserves_inv (st : SMState) (cid : String) (h : SMInv st) :
    SMInv (stop_call st cid) := by
  obtain ⟨hkeys, hports, halloc⟩ := h
  cases hget : st.get cid with
  | none => rw [stop_call_absent st cid hget]; exact ⟨hkeys, hports, halloc⟩
  | some sess =>
    rw [stop_call_present st cid sess hget]
    obtain ⟨pr, hprmem, hprcid, hprsess⟩ := get_eq_some_elim st cid sess hget
    have hsub : List.Sublist (st.sessions.filter (fun p => !(p.1 == cid))) st.sessions :=
      List.filter_sublist _
    refine ⟨?_, ?_, ?_⟩
    · exact List.Nodup.sublist (hsub.map Prod.fst) hkeys
    · exact List.Nodup.sublist (hsub.map (fun p => p.2.rtp_port)) hports
    · intro q hq
      have hq' := List.mem_filter.mp hq
      have hqcid : q.1 ≠ cid := by simpa using hq'.2
      have hqport : q.2.rtp_port ≠ sess.rtp_port := by
        intro heq
        have : q = pr := by
          refine List.inj_on_of_nodup_map hports hq'.1 hprmem ?_
          rw [heq, hprsess]
        exact hqcid (by rw [this, hprcid])
      refine List.mem_filter.mpr ⟨halloc q hq'.1, ?_⟩
      simpa using hqport

/-- Each manager operation preserves the invariant. -/
theorem applyOp_preserves_inv (ip : String) (pmin pmax : Nat) (st : SMState)
    (op : SMOp) (h : SMInv st) : SMInv (applyOp ip pmin pmax st op) := by
  cases op with
  | start req avail => exact start_call_preserves_inv _ st req h
  | stop cid => exact stop_call_preserves_inv st cid h

/-- C7: every state reachable from the fresh manager by `start_call` /
`stop_call` sequences keeps at most one session per call id, pairwise
distinct bound ports, and every bound port inside the allocated set. -/
theorem C7_reachable_invariant (ip : String) (pmin pmax : Nat) (ops : List SMOp) :
    SMInv (runOps ip pmin pmax ops) := by
  have hinit : SMInv smInit := by
    refine ⟨List.nodup_nil, List.nodup_nil, ?_⟩
    intro p hp
    cases hp
  have hfold : ∀ (l : List SMOp) (st : SMState), SMInv st →
      SMInv (l.foldl (applyOp ip pmin pmax) st) := by
    intro l
    induction l with
    | nil => intro st h; exact h
    | cons op l ih =>
      intro st h
      exact ih _ (applyOp_preserves_inv ip pmin pmax st op h)
  exact hfold ops smInit hinit

/-- Witness for C7 at a concrete operation sequence. -/
theorem C7_reachable_invariant_witness :
    SMInv (runOps "0.0.0.0" 11000 12000
      [SMOp.start ⟨"a", "PCMU", 8000, 1, none⟩ (fun _ => true),
       SMOp.stop "a"]) :=
  C7_reachable_invariant "0.0.0.0" 11000 12000 _

/-- C4: starting an already-started call id is an idempotent get — the
second call returns the very session the first call created, leaves the
state untouched, and the allocated-port set holds exactly one entry for
that session's port. -/
theorem C4_start_call_idempotent (cfg : SMConfig) (st st1 : SMState)
    (req : StartCallRequest) (s : CallSession)
    (hnew : st.get req.call_id = none)
    (hok : start_call cfg st req = (st1, Except.ok s)) :
    start_call cfg st1 req = (st1, Except.ok s) ∧
    st1.allocated_ports.count s.rtp_port = 1 := by
  cases hfp : findFreePort cfg st.allocated_ports with
  | none =>
    rw [start_call_exhausted cfg st req hnew hfp] at hok
    exact absurd (congrArg Prod.snd hok) (by simp)
  | some p =>
    rw [start_call_new cfg st req p hnew hfp] at hok
    simp only [Prod.mk.injEq] at hok
    obtain ⟨hst1, hs⟩ := hok
    injection hs with hs
    subst hst1
    subst hs
    have hpnot : p ∉ st.allocated_ports := findFreePort_not_allocated hfp
    have hfindnone : st.sessions.find? (fun q => q.1 == req.call_id) = none := by
      simpa [SMState.get, Option.map_eq_none'] using hnew
    have hget1 : SMState.get
        ⟨st.sessions ++ [(req.call_id,
            ⟨req.call_id, cfg.rtp_bind_ip, p, req.codec, req.sample_rate,
             req.channels, req.ssrc⟩)],
          setAdd p st.allocated_ports⟩ req.call_id
        = some ⟨req.call_id, cfg.rtp_bind_ip, p, req.codec, req.sample_rate,
            req.channels, req.ssrc⟩ := by
      simp [SMState.get, List.find?_append, hfindnone]
    refine ⟨start_call_existing cfg _ req _ hget1, ?_⟩
    have hset : setAdd p st.allocated_ports = p :: st.allocated_ports := by
      simp [setAdd, hpnot]
    simp [hset, List.count_cons_self, List.count_eq_zero.mpr hpnot]

/-- A configuration with the default environment values and an
always-succeeding OS bind probe. -/
def cfgDefault : SMConfig := ⟨"0.0.0.0", 11000, 12000, fun _ => true⟩

/-- A start request for call id `"a"` with the default negotiation. -/
def reqA : StartCallRequest := ⟨"a", "PCMU", 8000, 1, none⟩

/-- The session `start_call cfgDefault smInit reqA` creates. -/
def sessA : CallSession := ⟨"a", "0.0.0.0", 11000, "PCMU", 8000, 1, none⟩

/-- The manager state after that first start. -/
def stAfterA : SMState := ⟨[("a", sessA)], [11000]⟩

/-- Witness for C4: starting `"a"` twice from the fresh manager yields the
same session and a single pool entry for port 11000. -/
theorem C4_start_call_idempotent_witness :
    start_call cfgDefault stAfterA reqA = (stAfterA, Except.ok sessA) ∧
    stAfterA.allocated_ports.count sessA.rtp_port = 1 :=
  C4_start_call_idempotent cfgDefault smInit stAfterA reqA sessA (by decide) (by decide)

/-- C5: when every port of the configured range is already allocated,
`start_call` for a new call id fails with the port-exhaustion error and
returns the state unchanged — no port claimed, no session registered. -/
theorem C5_port_exhausted (cfg : SMConfig) (st : SMState) (req : StartCallRequest)
    (hnew : st.get req.call_id = none)
    (hfull : ∀ p, cfg.rtp_port_min ≤ p → p ≤ cfg.rtp_port_max →
      p ∈ st.allocated_ports) :
    start_call cfg st req = (st, Except.error SMError.portExhausted) := by
  have hfp : findFreePort cfg st.allocated_ports = none := by
    rw [findFreePort, List.find?_eq_none]
    intro p hp
    have hrange := List.mem_range'_1.mp hp
    have hmem : p ∈ st.allocated_ports := hfull p hrange.1 (by omega)
    simp [hmem]
  exact start_call_exhausted cfg st req hnew hfp

/-- A two-port configuration whose range is fully allocated. -/
def cfgTwoPorts : SMConfig := ⟨"0.0.0.0", 11000, 11001, fun _ => true⟩

/-- A state with both ports of `cfgTwoPorts` allocated and no sessions. -/
def stExhausted : SMState := ⟨[], [11000, 11001]⟩

/-- Witness for C5: with ports 11000 and 11001 both allocated, starting a
new call fails and mutates nothing. -/
theorem C5_port_exhausted_witness :
    start_call cfgTwoPorts stExhausted reqA
      = (stExhausted, Except.error SMError.portExhausted) :=
  C5_port_exhausted cfgTwoPorts stExhausted reqA (by decide)
    (by
      intro p h1 h2
      simp only [cfgTwoPorts] at h1 h2
      have hp : p = 11000 ∨ p = 11001 := by omega
      rcases hp with hp | hp <;> subst hp <;> decide)

/-- A one-port configuration: reuse after release is the only way a second
call can ever bind. -/
def cfgOnePort : SMConfig := ⟨"0.0.0.0", 11000, 11000, fun _ => true⟩

/-- A start request for call id `"b"`. -/
def reqB : StartCallRequest := ⟨"b", "PCMU", 8000, 1, none⟩

/-- The session `"b"` gets after `"a"` is stopped: the same port 11000. -/
def sessB : CallSession := ⟨"b", "0.0.0.0", 11000, "PCMU", 8000, 1, none⟩

/-- C6: stopping an inactive call id changes nothing; stopping an active
one removes its table entry and releases its port from the allocated set;
and a released port can be claimed by a subsequent `start_call` of a
different call id — demonstrated on a one-port pool where `"b"` receives
exactly the port `"a"` held. -/
theorem C6_stop_call_releases :
    (∀ (st : SMState) (cid : String), st.get cid = none → stop_call st cid = st) ∧
    (∀ (st : SMState) (cid : String) (sess : CallSession), st.get cid = some sess →
      (stop_call st cid).get cid = none ∧
      sess.rtp_port ∉ (stop_call st cid).allocated_ports) ∧
    ((start_call cfgOnePort smInit reqA).2 = Except.ok sessA ∧
      start_call cfgOnePort (stop_call (start_call cfgOnePort smInit reqA).1 "a") reqB
        = (⟨[("b", sessB)], [11000]⟩, Except.ok sessB) ∧
      sessB.rtp_port = sessA.rtp_port) := by
  refine ⟨?_, ?_, by decide, by decide, by decide⟩
  · intro st cid h
    exact stop_call_absent st cid h
  · intro st cid sess h
    rw [stop_call_present st cid sess h]
    constructor
    · rw [get_eq_none_iff]
      intro q hq
      have := (List.mem_filter.mp hq).2
      simpa using this
    · intro hmem
      have := (List.mem_filter.mp hmem).2
      simp at this

/-- Witness for C6 at concrete inputs: stopping the never-started id `"z"`
leaves the fresh manager unchanged. -/
theorem C6_stop_call_releases_witness :
    stop_call smInit "z" = smInit :=
  C6_stop_call_releases.1 smInit "z" (by decide)

/-! ### SIP engine lemmas -/

/-- Splitting after a CR-free line: the first CRLF found is the appended
one. -/
theorem splitCRLF_append (l rest : List Char) (h : '\r' ∉ l) :
    splitCRLF (l ++ '\r' :: '\n' :: rest) = l :: splitCRLF rest := by
  induction l with
  | nil => rfl
  | cons c l ih =>
    have hc : c ≠ '\r' := by intro he; exact h (he ▸ List.mem_cons_self _ _)
    have hl : '\r' ∉ l := fun hm => h (List.mem_cons_of_mem _ hm)
    have ih2 := ih hl
    rw [List.cons_append, splitCRLF.eq_def]
    split
    · simp_all
    · rename_i rest2 heq
      injection heq with h1 h2
      exact absurd h1 hc
    · rename_i c2 rest2 hne heq
      injection heq with h1 h2
      subst h1; subst h2
      rw [ih2]

/-- Splitting a CRLF-join of CR-free lines recovers the lines (plus the
empty trailer after the final CRLF). -/
theorem splitCRLF_joinCRLF (ls : List (List Char)) (h : ∀ l ∈ ls, '\r' ∉ l) :
    splitCRLF (joinCRLF ls) = ls ++ [[]] := by
  induction ls with
  | nil => rfl
  | cons l ls ih =>
    rw [joinCRLF, splitCRLF_append l _ (h l (List.mem_cons_self _ _)),
      ih (fun x hx => h x (List.mem_cons_of_mem _ hx))]
    rfl

/-- Decimal digit characters are never CR. -/
theorem digitChar_ne_cr (k : Nat) (hk : k < 10) : Char.ofNat (48 + k) ≠ '\r' := by
  interval_cases k <;> decide

/-- The decimal rendering of a number contains no CR. -/
theorem natToCharsAux_no_cr (fuel : Nat) : ∀ (n : Nat) (acc : List Char),
    '\r' ∉ acc → '\r' ∉ natToCharsAux fuel n acc := by
  induction fuel with
  | zero => intro n acc hacc; exact hacc
  | succ fuel ih =>
    intro n acc hacc
    have hd : Char.ofNat (48 + n % 10) ≠ '\r' :=
      digitChar_ne_cr (n % 10) (Nat.mod_lt _ (by omega))
    have hcons : '\r' ∉ Char.ofNat (48 + n % 10) :: acc := by
      intro hm
      rcases List.mem_cons.mp hm with hm | hm
      · exact hd hm.symm
      · exact hacc hm
    rw [natToCharsAux]
    split_ifs with h
    · exact hcons
    · exact ih (n / 10) _ hcons

theorem natToChars_no_cr (n : Nat) : '\r' ∉ natToChars n :=
  natToCharsAux_no_cr (n + 1) n [] (by simp)

/-- Membership never crosses an append when absent on both sides. -/
theorem not_mem_append {α : Type} {a : α} {l1 l2 : List α}
    (h1 : a ∉ l1) (h2 : a ∉ l2) : a ∉ l1 ++ l2 := by
  simp [List.mem_append, h1, h2]

/-- The SDP answer contains the `m=audio` line advertising exactly the port
it was built from. -/
theorem mAudioLine_mem_sdp_answer (ts : Nat) (ip : List Char) (port : Nat)
    (hip : '\r' ∉ ip) :
    mAudioLine port ∈ splitCRLF (sdp_answer ts ip port) := by
  rw [sdp_answer, splitCRLF_joinCRLF]
  · exact List.mem_append_left _ (by simp [mAudioLine])
  · intro l hl
    simp only [List.mem_cons, List.not_mem_nil, or_false] at hl
    rcases hl with rfl | rfl | rfl | rfl | rfl | rfl | rfl
    · decide
    · exact not_mem_append
        (not_mem_append
          (not_mem_append
            (not_mem_append
              (not_mem_append (by decide) (natToChars_no_cr ts))
              (by decide))
            (natToChars_no_cr ts))
          (by decide))
        hip
    · decide
    · exact not_mem_append (by decide) hip
    · decide
    · exact not_mem_append
        (not_mem_append (by decide) (natToChars_no_cr port)) (by decide)
    · decide

/-- Inserting a dialog makes it the one found for its key. -/
theorem dlgGet_set_self (k : List Char) (v : Dialog)
    (d : List (List Char × Dialog)) : dlgGet (dlgSet k v d) k = some v := by
  induction d with
  | nil =>
    simp only [dlgSet, dlgGet, List.find?_cons, List.find?_nil]
    rw [beq_self_eq_true]
    rfl
  | cons p d ih =>
    obtain ⟨k0, v0⟩ := p
    by_cases h : k0 = k
    · simp only [dlgSet, if_pos h, dlgGet, List.find?_cons]
      rw [show ((k0, v).1 == k) = true by simpa using h]
      rfl
    · simp only [dlgSet, if_neg h, dlgGet, List.find?_cons]
      rw [show ((k0, v0).1 == k) = false by simpa using h]
      exact ih

/-- A successful `start_call` leaves the session registered in the returned
manager state — the listener is bound and receiving before the caller
learns the port. -/
theorem start_call_registers (cfg : SMConfig) (st : SMState)
    (req : StartCallRequest) (sm1 : SMState) (session : CallSession)
    (h : start_call cfg st req = (sm1, Except.ok session)) :
    sm1.get req.call_id = some session := by
  cases hget : st.get req.call_id with
  | some s =>
    rw [start_call_existing cfg st req s hget] at h
    simp only [Prod.mk.injEq] at h
    obtain ⟨h1, h2⟩ := h
    injection h2 with h2
    subst h1; subst h2
    exact hget
  | none =>
    cases hfp : findFreePort cfg st.allocated_ports with
    | none =>
      rw [start_call_exhausted cfg st req hget hfp] at h
      exact absurd (congrArg Prod.snd h) (by simp)
    | some p =>
      rw [start_call_new cfg st req p hget hfp] at h
      simp only [Prod.mk.injEq] at h
      obtain ⟨h1, h2⟩ := h
      injection h2 with h2
      subst h1; subst h2
      have hfindnone : st.sessions.find? (fun q => q.1 == req.call_id) = none := by
        simpa [SMState.get, Option.map_eq_none'] using hget
      simp [SMState.get, List.find?_append, hfindnone]

/-- The fresh UAS: no dialogs, fresh session manager. -/
def uasInit : UASState := ⟨[], smInit⟩

/-- A `REGISTER` request — a method outside INVITE/ACK/BYE. -/
def registerMsg : List Char :=
  "REGISTER sip:x SIP/2.0\r\nCall-ID: r1\r\n\r\n".toList

/-- C2 counterexample: a datagram whose start-line method token is
`REGISTER` — not `INVITE`, `ACK` or `BYE` — produces no response at all
(in particular no 405): `parse_start_line` reports no method and the
engine silently drops the message. -/
theorem C2_register_gets_no_reply :
    (splitWS (firstLineOf registerMsg)).getD 0 [] = "REGISTER".toList ∧
    "REGISTER".toList ≠ "INVITE".toList ∧
    "REGISTER".toList ≠ "ACK".toList ∧
    "REGISTER".toList ≠ "BYE".toList ∧
    (datagram_received cfgDefault "0.0.0.0".toList 0 0 uasInit ("1.2.3.4", 5060)
        registerMsg).2 = [] := by decide

/-- C2 (amended): a 405 "Method Not Allowed" is sent exactly for datagrams
that `parse_start_line` does parse (start line beginning with `INVITE`,
`ACK` or `BYE`) but whose method token is none of the three; datagrams
with any other method are silently ignored. -/
theorem C2_unknown_parsed_method_gets_405 (cfg : SMConfig) (rtpIp : List Char)
    (nowMs ts : Nat) (st : UASState) (addr : String × Nat) (msg : List Char)
    (hne : ¬((parse_start_line msg).1 = []))
    (hinv : ¬((parse_start_line msg).1 = "INVITE".toList))
    (hack : ¬((parse_start_line msg).1 = "ACK".toList))
    (hbye : ¬((parse_start_line msg).1 = "BYE".toList)) :
    ((datagram_received cfg rtpIp nowMs ts st addr msg).2).map
        (fun r => (r.code, r.reason, r.sdp))
      = [(405, "Method Not Allowed".toList, (none : Option (List Char)))] := by
  simp only [datagram_received]
  rw [if_neg hne, if_neg hinv, if_neg hack, if_neg hbye]
  simp

/-- An `INVITES` request: parsed (the start line begins with `INVITE`) but
the method token matches no handled method. -/
def invitesMsg : List Char :=
  "INVITES sip:x SIP/2.0\r\nCall-ID: r2\r\n\r\n".toList

/-- Witness for the amended C2: the `INVITES` datagram is answered with
exactly one 405 "Method Not Allowed" without a body. -/
theorem C2_unknown_parsed_method_gets_405_witness :
    ((datagram_received cfgDefault "0.0.0.0".toList 0 0 uasInit ("1.2.3.4", 5060)
        invitesMsg).2).map (fun r => (r.code, r.reason, r.sdp))
      = [(405, "Method Not Allowed".toList, (none : Option (List Char)))] :=
  C2_unknown_parsed_method_gets_405 cfgDefault "0.0.0.0".toList 0 0 uasInit
    ("1.2.3.4", 5060) invitesMsg (by decide) (by decide) (by decide) (by decide)

/-- C3: an INVITE with no existing dialog yields, in order, a 100 "Trying"
with no to-tag, a 180 "Ringing" carrying the dialog's freshly generated
to-tag, and — only after `start_call` has returned, i.e. after the
session's RTP listener is bound and the session registered — a 200 "OK"
whose SDP body is built from that session's bound port and whose
`m=audio` line advertises exactly that port. -/
theorem C3_invite_trying_ringing_ok (cfg : SMConfig) (rtpIp : List Char)
    (nowMs ts : Nat) (st : UASState) (addr : String × Nat) (msg : List Char)
    (sm1 : SMState) (session : CallSession)
    (hmethod : (parse_start_line msg).1 = "INVITE".toList)
    (hnodialog : dlgGet st.dialogs (get_call_id (parse_headers msg)) = none)
    (hstart : start_call cfg st.sm
        ⟨String.mk (get_call_id (parse_headers msg)), "PCMU", 8000, 1, none⟩
        = (sm1, Except.ok session))
    (hip : '\r' ∉ rtpIp) :
    (datagram_received cfg rtpIp nowMs ts st addr msg).2 =
      [SipResponse.mk 100 "Trying".toList none none,
       SipResponse.mk 180 "Ringing".toList (some (newToTag nowMs)) none,
       SipResponse.mk 200 "OK".toList (some (newToTag nowMs))
         (some (sdp_answer ts rtpIp session.rtp_port))] ∧
    sm1.get (String.mk (get_call_id (parse_headers msg))) = some session ∧
    mAudioLine session.rtp_port ∈ splitCRLF (sdp_answer ts rtpIp session.rtp_port) := by
  refine ⟨?_, start_call_registers _ _ _ _ _ hstart,
    mAudioLine_mem_sdp_answer ts rtpIp session.rtp_port hip⟩
  have hne : ¬((parse_start_line msg).1 = []) := by rw [hmethod]; decide
  simp only [datagram_received]
  rw [if_neg hne, if_pos hmethod, hnodialog]
  simp only [Option.isSome_none, Bool.false_eq_true, if_false, dlgGet_set_self,
    Option.getD_some, mkDialog]
  rw [hstart]

/-- A complete INVITE for call id `abc123`. -/
def inviteMsgW : List Char :=
  ("INVITE sip:bob SIP/2.0\r\nVia: SIP/2.0/UDP host1\r\n"
    ++ "From: <sip:alice@h>;tag=xyz\r\nTo: <sip:bob@h>\r\n"
    ++ "Call-ID: abc123\r\nCSeq: 1 INVITE\r\n\r\n").toList

/-- The session `start_call` creates for `abc123` under `cfgDefault`. -/
def sessAbc : CallSession := ⟨"abc123", "0.0.0.0", 11000, "PCMU", 8000, 1, none⟩

/-- The manager state holding exactly the `abc123` session. -/
def smAbc : SMState := ⟨[("abc123", sessAbc)], [11000]⟩

/-- Witness for C3: the `abc123` INVITE against the fresh UAS yields the
100/180/200 trace, the 200 advertising the bound port 11000. -/
theorem C3_invite_trying_ringing_ok_witness :
    (datagram_received cfgDefault "0.0.0.0".toList 42 5 uasInit ("1.2.3.4", 5060)
        inviteMsgW).2 =
      [SipResponse.mk 100 "Trying".toList none none,
       SipResponse.mk 180 "Ringing".toList (some (newToTag 42)) none,
       SipResponse.mk 200 "OK".toList (some (newToTag 42))
         (some (sdp_answer 5 "0.0.0.0".toList sessAbc.rtp_port))] ∧
    smAbc.get (String.mk (get_call_id (parse_headers inviteMsgW))) = some sessAbc ∧
    mAudioLine sessAbc.rtp_port
      ∈ splitCRLF (sdp_answer 5 "0.0.0.0".toList sessAbc.rtp_port) :=
  C3_invite_trying_ringing_ok cfgDefault "0.0.0.0".toList 42 5 uasInit
    ("1.2.3.4", 5060) inviteMsgW smAbc sessAbc
    (by decide) (by decide) (by decide) (by decide)

end SipReceiver
